import Mathlib

/-!
Verification of the Hyperstream SDK client (`src/client.ts`, `src/fetch.ts`,
`src/errors.ts`) against its natural-language specification.

The TypeScript source is shallowly embedded: JavaScript values that can be
`undefined`/`null` become `Option`s (with a three-valued type where the code
distinguishes the two nullish forms), fallible calls become `Except`, and the
`searchTokens` async generator becomes a recursive function over the scripted
list of server responses, returning the full trace of yielded batches and
dispatched request cursors.
-/

namespace Hyperstream

/-- A JSON value, used for the opaque parts of parsed response bodies. -/
inductive Json where
  | null
  | bool (b : Bool)
  | num (n : Int)
  | str (s : String)
  | arr (items : List Json)
  | obj (fields : List (String × Json))

/-- A token record (`src/types.ts`, `interface Token`).  Optional fields that
no claim inspects are kept as `Option`s. -/
structure Token where
  address : String
  chainId : Int
  name : String
  symbol : String
  decimals : Nat
  logoURI : Option String := none
deriving DecidableEq, Repr

/-- The runtime value of the `cursor` property of a token-search response
body: absent (`undefined`), explicitly `null`, or a number.  The client code
(`page.cursor ?? undefined`) distinguishes nullish from numeric, so the
embedding keeps all three shapes. -/
inductive CursorField where
  | missing
  | null
  | num (n : Int)
deriving DecidableEq, Repr

/-- `src/types.ts`, `interface TokenSearchResponse`: one page of search
results, `{ data: Token[], cursor?: number }`. -/
structure TokenSearchResponse where
  data : List Token
  cursor : CursorField
deriving DecidableEq, Repr

/-- The fields of `SearchTokensRequest` (`src/types.ts`) that the pagination
loop reads: only `cursor` matters to the loop; the rest of the request is
spread unchanged into every payload. -/
structure SearchTokensRequest where
  q : String
  limit : Option Nat := none
  cursor : Option Int := none
deriving DecidableEq, Repr

/-- JavaScript `x ?? undefined` applied to the cursor field
(`src/client.ts` line 96): `null` and `undefined` both become `undefined`
(`none`); a number survives — including `0`. -/
def cursorCoalesce : CursorField → Option Int
  | .missing => none
  | .null => none
  | .num n => some n

/-- A parsed non-2xx response body, as read by `executeRequest`
(`src/client.ts` lines 170-183): the code projects the `message`, `error`,
`code` and `details` properties out of the decoded object. -/
structure ErrBody where
  message : Option String := none
  error : Option String := none
  code : Option String := none
  details : Option Json := none

/-- A thrown value that is not a `HyperstreamApiError`: either an `Error`
instance (carrying a message) or any other JavaScript value. -/
inductive ThrownValue where
  | jsError (message : String)
  | otherValue

/-- The `details` field of a `HyperstreamApiError`: `undefined`, the parsed
body's `details` property, the whole parsed body, or the `{ error }` wrapper
built by `normalizeTransportError`. -/
inductive ApiDetails where
  | undef
  | jsonDetails (j : Json)
  | wholeBody (b : ErrBody)
  | wrapsThrown (v : ThrownValue)

/-- `src/errors.ts`, `class HyperstreamApiError`.  `requestId` is `none` for
both JavaScript `null` and `undefined` (the constructor's `?? null` collapses
the two). -/
structure HsApiError where
  message : String
  status : Nat
  code : Option String := none
  details : ApiDetails := .undef
  requestId : Option String := none
  causeResponseBody : Option ErrBody := none

/-- The pieces of a WHATWG `Response` that the embedded code reads:
`status`, `statusText`, and the `x-request-id` header
(`result.raw?.headers.get("x-request-id")`, `src/client.ts` line 181). -/
structure HttpResponse where
  status : Nat
  statusText : String
  requestIdHeader : Option String := none

/-- `Response.ok` per the fetch standard, read by `Fetch.request`
(`src/fetch.ts` line 122): `true` iff the status is in 200-299, as the
spec's TransportResult success flag records. -/
def responseOk (r : HttpResponse) : Bool :=
  decide (200 ≤ r.status) && decide (r.status < 300)

/-- `src/fetch.ts`, `interface FetchJSONResult`: status, best-effort decoded
body (`none` when the body is absent or fails to parse as JSON), success
flag, and the raw response handle.  The body is specialized to the error-body
record shape that `executeRequest` projects fields from. -/
structure FetchJSONResult where
  status : Nat
  data : Option ErrBody
  ok : Bool
  raw : Option HttpResponse

/-- The result assembly of `Fetch.request` (`src/fetch.ts` lines 121-129):
`status` and `ok` copied from the response, `data` the best-effort JSON
decode, `raw` the response itself. -/
def mkFetchJSONResult (resp : HttpResponse) (decoded : Option ErrBody) :
    FetchJSONResult :=
  { status := resp.status, data := decoded, ok := responseOk resp,
    raw := some resp }

/-- JavaScript truthiness of a `string | undefined` value: `undefined` and
the empty string are falsy. -/
def jsTruthyStr : Option String → Bool
  | none => false
  | some s => s != ""

/-- The message fallback chain of `executeRequest` (`src/client.ts` lines
171-175): `payload?.message || payload?.error || result.raw?.statusText ||
"Hyperstream API request failed"` — each `||` skips a falsy (absent or
empty) operand. -/
def errMessage (payloadMessage payloadError statusText : Option String) :
    String :=
  if jsTruthyStr payloadMessage then payloadMessage.getD ""
  else if jsTruthyStr payloadError then payloadError.getD ""
  else if jsTruthyStr statusText then statusText.getD ""
  else "Hyperstream API request failed"

/-- The `details` computation `payload?.details ?? payload` (`src/client.ts`
line 180): an absent payload gives `undefined`; an absent or `null` `details`
property falls back to the whole parsed body. -/
def errDetails : Option ErrBody → ApiDetails
  | none => .undef
  | some b =>
    match b.details with
    | none => .wholeBody b
    | some Json.null => .wholeBody b
    | some j => .jsonDetails j

/-- The `HyperstreamApiError` built by `executeRequest` for a non-2xx
transport result (`src/client.ts` lines 169-183). -/
def non2xxApiError (result : FetchJSONResult) : HsApiError :=
  { message := errMessage (result.data.bind ErrBody.message)
      (result.data.bind ErrBody.error) (result.raw.map HttpResponse.statusText)
    status := result.status
    code := result.data.bind ErrBody.code
    details := errDetails result.data
    requestId := result.raw.bind HttpResponse.requestIdHeader
    causeResponseBody := result.data }

/-- `HyperstreamClient.executeRequest` (`src/client.ts` lines 154-187) after
the transport call returned: a successful (`ok`) result's decoded data is
returned; otherwise the non-2xx `HyperstreamApiError` is thrown. -/
def executeRequestOutcome (result : FetchJSONResult) :
    Except HsApiError (Option ErrBody) :=
  if result.ok then .ok result.data else .error (non2xxApiError result)

/-- A value caught by the transport proxy (`src/client.ts` lines 216-226):
either already a `HyperstreamApiError`, or some other thrown value. -/
inductive CaughtValue where
  | already (e : HsApiError)
  | plain (v : ThrownValue)

/-- `HyperstreamClient.normalizeTransportError` (`src/client.ts` lines
231-245): a `HyperstreamApiError` passes through unchanged; anything else
becomes an error with status `0`, code `"TransportError"`, the `Error`'s
message (or a generic description for non-`Error` values), and details
wrapping the thrown value. -/
def normalizeTransportError : CaughtValue → HsApiError
  | .already e => e
  | .plain v =>
    { message :=
        match v with
        | .jsError m => m
        | .otherValue => "Hyperstream transport request failed"
      status := 0
      code := some "TransportError"
      details := .wrapsThrown v }

/-- How a fully-consumed `searchTokens` sequence ended. -/
inductive StreamOutcome where
  | terminated
  | failed (e : HsApiError)
  | scriptExhausted

/-- The observable trace of consuming a `searchTokens` generator to the end:
the yielded batches (in order), the `cursor` value sent with each dispatched
payload (in order; its length is the number of dispatches), and how the
sequence ended. -/
structure StreamTrace where
  batches : List (List Token)
  sentCursors : List (Option Int)
  outcome : StreamOutcome

/-- The body of the `do … while (cursor !== undefined)` loop of
`HyperstreamClient.searchTokens` (`src/client.ts` lines 89-97), run against a
scripted list of dispatch results.  Each iteration dispatches one request
carrying the current cursor; on success it yields `page.data` and advances the
cursor by `page.cursor ?? undefined`; it loops again exactly when that value
is not `undefined`.  An `scriptExhausted` outcome means the loop demanded a
response beyond the script. -/
def searchTokensLoop (c : Option Int) :
    List (Except HsApiError TokenSearchResponse) → StreamTrace
  | [] => ⟨[], [], .scriptExhausted⟩
  | .error e :: _ => ⟨[], [c], .failed e⟩
  | .ok page :: rest =>
    match cursorCoalesce page.cursor with
    | none => ⟨[page.data], [c], .terminated⟩
    | some n =>
      let t := searchTokensLoop (some n) rest
      ⟨page.data :: t.batches, c :: t.sentCursors, t.outcome⟩

/-- `HyperstreamClient.searchTokens` (`src/client.ts` lines 86-98): the loop
starts from the caller's `request.cursor`. -/
def searchTokens (req : SearchTokensRequest)
    (responses : List (Except HsApiError TokenSearchResponse)) : StreamTrace :=
  searchTokensLoop req.cursor responses

/-- Consuming a script of cursor-bearing pages closed by a cursor-less page
yields each page's data once, dispatches once per page, and terminates, from
any starting cursor. -/
lemma searchTokensLoop_complete_script (front : List TokenSearchResponse)
    (lastp : TokenSearchResponse)
    (hfront : ∀ p ∈ front, ∃ n, p.cursor = CursorField.num n)
    (hlast : lastp.cursor = CursorField.missing) :
    ∀ c, (searchTokensLoop c ((front ++ [lastp]).map Except.ok)).batches =
        (front ++ [lastp]).map TokenSearchResponse.data ∧
      (searchTokensLoop c ((front ++ [lastp]).map Except.ok)).sentCursors.length =
        front.length + 1 ∧
      (searchTokensLoop c ((front ++ [lastp]).map Except.ok)).outcome =
        StreamOutcome.terminated := by
  induction front with
  | nil =>
    intro c
    simp [searchTokensLoop, cursorCoalesce, hlast]
  | cons p fr ih =>
    intro c
    obtain ⟨n, hn⟩ := hfront p (List.mem_cons_self p fr)
    have ihn := ih (fun q hq => hfront q (List.mem_cons_of_mem p hq)) (some n)
    simp only [List.map_append, List.map_cons, List.map_nil] at ihn
    simp only [List.cons_append, List.map_cons, searchTokensLoop, hn,
      cursorCoalesce]
    exact ⟨by simpa using ihn.1, by simpa using ihn.2.1, by simpa using ihn.2.2⟩

/-- Consuming a script of cursor-bearing pages followed by a failing dispatch
yields each successful page's data, dispatches once per script entry, and
fails with the script's error, from any starting cursor. -/
lemma searchTokensLoop_failing_script (pages : List TokenSearchResponse)
    (e : HsApiError)
    (hpages : ∀ p ∈ pages, ∃ n, p.cursor = CursorField.num n) :
    ∀ c, (searchTokensLoop c (pages.map Except.ok ++ [Except.error e])).batches =
        pages.map TokenSearchResponse.data ∧
      (searchTokensLoop c
        (pages.map Except.ok ++ [Except.error e])).sentCursors.length =
        pages.length + 1 ∧
      (searchTokensLoop c (pages.map Except.ok ++ [Except.error e])).outcome =
        StreamOutcome.failed e := by
  induction pages with
  | nil =>
    intro c
    simp [searchTokensLoop]
  | cons p fr ih =>
    intro c
    obtain ⟨n, hn⟩ := hpages p (List.mem_cons_self p fr)
    have ihn := ih (fun q hq => hpages q (List.mem_cons_of_mem p hq)) (some n)
    simp only [List.cons_append, List.map_cons, searchTokensLoop, hn,
      cursorCoalesce]
    exact ⟨by simpa using ihn.1, by simpa using ihn.2.1, by simpa using ihn.2.2⟩

/-- C1: for every finite script of server pages whose non-final pages carry a
numeric cursor and whose last page omits the cursor field, consuming the
`searchTokens` sequence yields exactly one batch per page — each batch the
page's `data` array, in server order — dispatches exactly one request per
page, and terminates with no further dispatches after the cursor-less page
(the loop never demands a response beyond the script). -/
theorem searchTokens_one_batch_per_page (req : SearchTokensRequest)
    (front : List TokenSearchResponse) (lastp : TokenSearchResponse)
    (hfront : ∀ p ∈ front, ∃ n, p.cursor = CursorField.num n)
    (hlast : lastp.cursor = CursorField.missing) :
    (searchTokens req ((front ++ [lastp]).map Except.ok)).batches =
      (front ++ [lastp]).map TokenSearchResponse.data ∧
    (searchTokens req ((front ++ [lastp]).map Except.ok)).sentCursors.length =
      (front ++ [lastp]).length ∧
    (searchTokens req ((front ++ [lastp]).map Except.ok)).outcome =
      StreamOutcome.terminated := by
  have h := searchTokensLoop_complete_script front lastp hfront hlast req.cursor
  exact ⟨h.1, by simpa using h.2.1, h.2.2⟩

/-- C1 witness: a two-page script (second batch empty, cursor omitted) yields
exactly the two data arrays in order, with exactly two dispatches. -/
theorem searchTokens_one_batch_per_page_witness :
    (searchTokens ⟨"usdc", some 1, none⟩
      [Except.ok ⟨[⟨"0x1", 1, "Token 1", "TK1", 18, none⟩], CursorField.num 99⟩,
       Except.ok ⟨[], CursorField.missing⟩]).batches =
        [[⟨"0x1", 1, "Token 1", "TK1", 18, none⟩], []] ∧
    (searchTokens ⟨"usdc", some 1, none⟩
      [Except.ok ⟨[⟨"0x1", 1, "Token 1", "TK1", 18, none⟩], CursorField.num 99⟩,
       Except.ok ⟨[], CursorField.missing⟩]).sentCursors.length = 2 ∧
    (searchTokens ⟨"usdc", some 1, none⟩
      [Except.ok ⟨[⟨"0x1", 1, "Token 1", "TK1", 18, none⟩], CursorField.num 99⟩,
       Except.ok ⟨[], CursorField.missing⟩]).outcome =
      StreamOutcome.terminated := by
  have h := searchTokens_one_batch_per_page ⟨"usdc", some 1, none⟩
    [⟨[⟨"0x1", 1, "Token 1", "TK1", 18, none⟩], CursorField.num 99⟩]
    ⟨[], CursorField.missing⟩
    (by intro p hp; rw [List.mem_singleton] at hp; subst hp; exact ⟨99, rfl⟩)
    rfl
  simpa using h

/-- C2: if the first `N - 1` dispatches succeed with cursor-bearing pages and
the `N`-th dispatch fails with an `ApiError`, then exactly the `N - 1`
successful batches have been yielded (in order), exactly `N` dispatches have
been performed (no retry), and the sequence fails with exactly that error. -/
theorem searchTokens_fails_with_nth_error (req : SearchTokensRequest)
    (pages : List TokenSearchResponse) (e : HsApiError)
    (hpages : ∀ p ∈ pages, ∃ n, p.cursor = CursorField.num n) :
    (searchTokens req (pages.map Except.ok ++ [Except.error e])).batches =
      pages.map TokenSearchResponse.data ∧
    (searchTokens req
      (pages.map Except.ok ++ [Except.error e])).sentCursors.length =
      pages.length + 1 ∧
    (searchTokens req (pages.map Except.ok ++ [Except.error e])).outcome =
      StreamOutcome.failed e :=
  searchTokensLoop_failing_script pages e hpages req.cursor

/-- C2 witness: one successful cursor-bearing page, then a failing dispatch —
one batch yielded, two dispatches, outcome is that error. -/
theorem searchTokens_fails_with_nth_error_witness :
    (searchTokens ⟨"usdc", none, none⟩
      [Except.ok ⟨[⟨"0x2", 1, "Token 2", "TK2", 6, none⟩], CursorField.num 5⟩,
       Except.error ⟨"Boom", 500, some "ServerError", .undef, none, none⟩]).batches =
        [[⟨"0x2", 1, "Token 2", "TK2", 6, none⟩]] ∧
    (searchTokens ⟨"usdc", none, none⟩
      [Except.ok ⟨[⟨"0x2", 1, "Token 2", "TK2", 6, none⟩], CursorField.num 5⟩,
       Except.error ⟨"Boom", 500, some "ServerError", .undef, none, none⟩]).sentCursors.length = 2 ∧
    (searchTokens ⟨"usdc", none, none⟩
      [Except.ok ⟨[⟨"0x2", 1, "Token 2", "TK2", 6, none⟩], CursorField.num 5⟩,
       Except.error ⟨"Boom", 500, some "ServerError", .undef, none, none⟩]).outcome =
      StreamOutcome.failed ⟨"Boom", 500, some "ServerError", .undef, none, none⟩ := by
  have h := searchTokens_fails_with_nth_error ⟨"usdc", none, none⟩
    [⟨[⟨"0x2", 1, "Token 2", "TK2", 6, none⟩], CursorField.num 5⟩]
    ⟨"Boom", 500, some "ServerError", .undef, none, none⟩
    (by intro p hp; rw [List.mem_singleton] at hp; subst hp; exact ⟨5, rfl⟩)
  simpa using h

/-- C10: termination of the pagination loop is decided by nullish-ness of the
returned cursor, not by its truthiness: a page whose cursor is the number `0`
does not terminate — the loop continues, and the next dispatched request
carries cursor `0` — while a page whose cursor is absent or `null` terminates
the sequence immediately. -/
theorem searchTokens_cursor_zero_continues (c : Option Int)
    (p : TokenSearchResponse) (rest : List (Except HsApiError TokenSearchResponse)) :
    (p.cursor = CursorField.num 0 →
      searchTokensLoop c (Except.ok p :: rest) =
        ⟨p.data :: (searchTokensLoop (some 0) rest).batches,
         c :: (searchTokensLoop (some 0) rest).sentCursors,
         (searchTokensLoop (some 0) rest).outcome⟩) ∧
    (p.cursor = CursorField.num 0 →
      ∀ r rs, rest = r :: rs →
        (searchTokensLoop c (Except.ok p :: rest)).sentCursors[1]? =
          some (some 0)) ∧
    ((p.cursor = CursorField.missing ∨ p.cursor = CursorField.null) →
      searchTokensLoop c (Except.ok p :: rest) = ⟨[p.data], [c], .terminated⟩) := by
  refine ⟨fun h0 => ?_, fun h0 r rs hr => ?_, fun hn => ?_⟩
  · simp [searchTokensLoop, h0, cursorCoalesce]
  · subst hr
    cases r with
    | error e => simp [searchTokensLoop, h0, cursorCoalesce]
    | ok q =>
      obtain ⟨qd, qc⟩ := q
      cases qc <;> simp [searchTokensLoop, h0, cursorCoalesce]
  · rcases hn with hn | hn <;> simp [searchTokensLoop, hn, cursorCoalesce]

/-- C10 witness: a page with cursor `0` followed by a cursor-less page gives
two dispatches, the second carrying cursor `0`; a page with cursor `null`
terminates at once. -/
theorem searchTokens_cursor_zero_continues_witness :
    searchTokensLoop none
      [Except.ok ⟨[], CursorField.num 0⟩, Except.ok ⟨[], CursorField.missing⟩] =
      ⟨[[], []], [none, some 0], .terminated⟩ ∧
    (searchTokensLoop none
      [Except.ok ⟨[], CursorField.num 0⟩,
       Except.ok ⟨[], CursorField.missing⟩]).sentCursors[1]? = some (some 0) ∧
    searchTokensLoop none [Except.ok ⟨[], CursorField.null⟩] =
      ⟨[[]], [none], .terminated⟩ := by
  refine ⟨?_, ?_, ?_⟩
  · have h := (searchTokens_cursor_zero_continues none ⟨[], CursorField.num 0⟩
      [Except.ok ⟨[], CursorField.missing⟩]).1 rfl
    rw [h]
    rfl
  · exact (searchTokens_cursor_zero_continues none ⟨[], CursorField.num 0⟩
      [Except.ok ⟨[], CursorField.missing⟩]).2.1 rfl
      (Except.ok ⟨[], CursorField.missing⟩) [] rfl
  · exact (searchTokens_cursor_zero_continues none ⟨[], CursorField.null⟩ []).2.2
      (Or.inr rfl)

/-- JavaScript truthiness of a `string | undefined` value coincides with
"present with a non-empty value", i.e. with defaulting the absent case to the
empty string. -/
lemma jsTruthyStr_iff (x : Option String) :
    jsTruthyStr x = true ↔ x.getD "" ≠ "" := by
  cases x <;> simp [jsTruthyStr]

/-- C3: for every dispatched request whose transport result is non-2xx, the
thrown error's `status` equals the HTTP status, its `message` is the first
non-falsy entry of: the parsed body's `message` field, the body's `error`
field, the response's status text, and the generic fallback string (an absent
body or an absent field contributes the falsy empty string), and its `code`
is the parsed body's `code` field when present. -/
theorem executeRequest_non2xx_throws (resp : HttpResponse)
    (decoded : Option ErrBody)
    (h : ¬(200 ≤ resp.status ∧ resp.status < 300)) :
    executeRequestOutcome (mkFetchJSONResult resp decoded) =
      Except.error
        { message :=
            if (decoded.bind ErrBody.message).getD "" ≠ "" then
              (decoded.bind ErrBody.message).getD ""
            else if (decoded.bind ErrBody.error).getD "" ≠ "" then
              (decoded.bind ErrBody.error).getD ""
            else if resp.statusText ≠ "" then resp.statusText
            else "Hyperstream API request failed"
          status := resp.status
          code := decoded.bind ErrBody.code
          details := errDetails decoded
          requestId := resp.requestIdHeader
          causeResponseBody := decoded } := by
  have hok : responseOk resp = false := by
    simp only [responseOk, Bool.and_eq_false_iff, decide_eq_false_iff_not]
    omega
  simp only [executeRequestOutcome, mkFetchJSONResult, hok, Bool.false_eq_true,
    if_false, non2xxApiError, errMessage, Option.map_some', Option.some_bind,
    Except.error.injEq]
  simp [jsTruthyStr_iff]

/-- C3 witness: a 500 response with body `{message: "Boom", code:
"ServerError"}` throws an error with status 500, message `"Boom"` and code
`"ServerError"`. -/
theorem executeRequest_non2xx_throws_witness :
    executeRequestOutcome
      (mkFetchJSONResult ⟨500, "Internal Server Error", some "req-1"⟩
        (some ⟨some "Boom", none, some "ServerError", none⟩)) =
      Except.error
        { message := "Boom"
          status := 500
          code := some "ServerError"
          details := .wholeBody ⟨some "Boom", none, some "ServerError", none⟩
          requestId := some "req-1"
          causeResponseBody :=
            some ⟨some "Boom", none, some "ServerError", none⟩ } := by
  have h := executeRequest_non2xx_throws ⟨500, "Internal Server Error", some "req-1"⟩
    (some ⟨some "Boom", none, some "ServerError", none⟩) (by decide)
  simpa [errDetails] using h

/-- C4: every transport-level failure — the underlying call throwing an
`Error` or any other value before an HTTP response exists — surfaces as an
`ApiError` with status `0`, the fixed code `"TransportError"`, message equal
to the failure's description (the `Error`'s own message, or the generic
transport-failure description for a non-`Error` value), and details wrapping
the thrown value. -/
theorem normalizeTransportError_plain (m : String) :
    normalizeTransportError (.plain (.jsError m)) =
      { message := m, status := 0, code := some "TransportError",
        details := .wrapsThrown (.jsError m), requestId := none,
        causeResponseBody := none } ∧
    normalizeTransportError (.plain .otherValue) =
      { message := "Hyperstream transport request failed", status := 0,
        code := some "TransportError", details := .wrapsThrown .otherValue,
        requestId := none, causeResponseBody := none } :=
  ⟨rfl, rfl⟩

/-- `src/types.ts`, `enum IntentState`. -/
inductive IntentState where
  | nonExistent | open_ | locked | solved | settled | expired | cancelled | error
deriving DecidableEq, Repr

/-- `src/types.ts`, `interface IntentDeposit`. -/
structure IntentDeposit where
  chainId : Int
  txHash : String
  intentId : String
  state : IntentState
deriving DecidableEq, Repr

/-- The `catch` handler of `HyperstreamClient.getToken` (`src/client.ts`
lines 73-83) applied to the dispatch result: an `ApiError` with status 404 or
400 becomes a `null` result; every other error propagates unchanged. -/
def getTokenHandle (r : Except HsApiError Token) :
    Except HsApiError (Option Token) :=
  match r with
  | .ok t => .ok (some t)
  | .error e =>
    if e.status = 404 ∨ e.status = 400 then .ok none else .error e

/-- The `catch` handler of `HyperstreamClient.getIntentByDeposit`
(`src/client.ts` lines 114-123): only status 404 becomes a `null` result;
every other error (including 400) propagates unchanged. -/
def getIntentByDepositHandle (r : Except HsApiError IntentDeposit) :
    Except HsApiError (Option IntentDeposit) :=
  match r with
  | .ok d => .ok (some d)
  | .error e => if e.status = 404 then .ok none else .error e

/-- C5: a `getToken` dispatch failing with status 404 or 400 returns `null`
instead of throwing; a `getIntentByDeposit` dispatch failing with status 404
returns `null` while status 400 throws; in both operations every other
status propagates the `ApiError` unchanged. -/
theorem lookup_absence_policy (e : HsApiError) :
    (e.status = 404 ∨ e.status = 400 →
      getTokenHandle (.error e) = .ok none) ∧
    (e.status = 404 → getIntentByDepositHandle (.error e) = .ok none) ∧
    (e.status = 400 → getIntentByDepositHandle (.error e) = .error e) ∧
    (¬(e.status = 404 ∨ e.status = 400) →
      getTokenHandle (.error e) = .error e) ∧
    (e.status ≠ 404 → getIntentByDepositHandle (.error e) = .error e) := by
  refine ⟨fun h => ?_, fun h => ?_, fun h => ?_, fun h => ?_, fun h => ?_⟩
  · simp only [getTokenHandle, if_pos h]
  · simp only [getIntentByDepositHandle, if_pos h]
  · have h404 : ¬ e.status = 404 := by omega
    simp only [getIntentByDepositHandle, if_neg h404]
  · simp only [getTokenHandle, if_neg h]
  · simp only [getIntentByDepositHandle, if_neg h]

/-- C5 witness: status 400 yields `null` for `getToken` but throws for
`getIntentByDeposit`; 404 yields `null` for `getIntentByDeposit`; 500
propagates for `getToken`. -/
theorem lookup_absence_policy_witness :
    getTokenHandle (.error ⟨"Bad Request", 400, none, .undef, none, none⟩) =
      .ok none ∧
    getIntentByDepositHandle
      (.error ⟨"Bad Request", 400, none, .undef, none, none⟩) =
      .error ⟨"Bad Request", 400, none, .undef, none, none⟩ ∧
    getIntentByDepositHandle
      (.error ⟨"Not Found", 404, none, .undef, none, none⟩) = .ok none ∧
    getTokenHandle (.error ⟨"Boom", 500, some "ServerError", .undef, none, none⟩) =
      .error ⟨"Boom", 500, some "ServerError", .undef, none, none⟩ :=
  ⟨(lookup_absence_policy ⟨"Bad Request", 400, none, .undef, none, none⟩).1
      (Or.inr rfl),
   (lookup_absence_policy ⟨"Bad Request", 400, none, .undef, none, none⟩).2.2.1
      rfl,
   (lookup_absence_policy ⟨"Not Found", 404, none, .undef, none, none⟩).2.1 rfl,
   (lookup_absence_policy
      ⟨"Boom", 500, some "ServerError", .undef, none, none⟩).2.2.2.1
      (by decide)⟩

/-- The decoded success body of `submitDeposit`: `{ status?: string }`
(`src/client.ts` line 127). -/
structure SubmitBody where
  status : Option String := none
deriving DecidableEq, Repr

/-- `HyperstreamClient.submitDeposit` (`src/client.ts` lines 126-135) after
dispatch: an error propagates; a nullish decoded body gives `false`
(`if (!response) return false`); otherwise the result is
`response.status === "accepted"`. -/
def submitDepositResult (r : Except HsApiError (Option SubmitBody)) :
    Except HsApiError Bool :=
  match r with
  | .error e => .error e
  | .ok none => .ok false
  | .ok (some b) => .ok (b.status == some "accepted")

/-- C6: whenever the `submitDeposit` dispatch succeeds, the method returns a
boolean rather than throwing, and it returns `true` exactly when the decoded
body is present with its `status` field equal to `"accepted"`; every other
decoded shape (absent or undecodable body included) gives `false`. -/
theorem submitDeposit_accepted_iff (v : Option SubmitBody) :
    (∃ x, submitDepositResult (.ok v) = .ok x) ∧
    (submitDepositResult (.ok v) = .ok true ↔ v = some ⟨some "accepted"⟩) := by
  cases v with
  | none =>
    exact ⟨⟨false, rfl⟩, by simp [submitDepositResult]⟩
  | some b =>
    refine ⟨⟨b.status == some "accepted", rfl⟩, ?_⟩
    obtain ⟨bs⟩ := b
    simp [submitDepositResult, SubmitBody.mk.injEq]

/-- C6 witness: `{status: "accepted"}` gives `true`; `{status: "pending"}`,
`{}` and an undecodable body give `false`, none of them throwing. -/
theorem submitDeposit_accepted_iff_witness :
    submitDepositResult (.ok (some ⟨some "accepted"⟩)) = .ok true ∧
    submitDepositResult (.ok (some ⟨some "pending"⟩)) ≠ .ok true ∧
    submitDepositResult (.ok none) ≠ .ok true :=
  ⟨(submitDeposit_accepted_iff (some ⟨some "accepted"⟩)).2.mpr rfl,
   fun h => by
     have := (submitDeposit_accepted_iff (some ⟨some "pending"⟩)).2.mp h
     simp at this,
   fun h => by
     have := (submitDeposit_accepted_iff none).2.mp h
     simp at this⟩

/-- The character class `[0-9a-fA-F]` of the `isHexLike` regular expression
(`src/client.ts` line 249). -/
def isAsciiHexDigit (c : Char) : Bool :=
  (decide ('0' ≤ c) && decide (c ≤ '9')) ||
  (decide ('a' ≤ c) && decide (c ≤ 'f')) ||
  (decide ('A' ≤ c) && decide (c ≤ 'F'))

/-- `isHexLike` (`src/client.ts` lines 248-250): tests the anchored regular
expression `^0x[0-9a-fA-F]+$`. -/
def isHexLike (s : String) : Bool :=
  match s.data with
  | c0 :: c1 :: rest =>
    c0 == '0' && c1 == 'x' && !rest.isEmpty && rest.all isAsciiHexDigit
  | _ => false

/-- An uppercase hexadecimal digit, for percent-escapes. -/
def hexUpperDigit (n : Nat) : Char :=
  if n < 10 then Char.ofNat (48 + n) else Char.ofNat (55 + n)

/-- A percent-escape `%XY` for one byte. -/
def percentEncodeByte (b : Nat) : List Char :=
  ['%', hexUpperDigit (b / 16), hexUpperDigit (b % 16)]

/-- The bytes that `encodeURIComponent` leaves unescaped: ASCII
alphanumerics and `- _ . ! ~ * ' ( )` (ECMA-262). -/
def isUriUnreservedByte (b : Nat) : Bool :=
  (48 ≤ b && b ≤ 57) || (65 ≤ b && b ≤ 90) || (97 ≤ b && b ≤ 122) ||
  b == 45 || b == 95 || b == 46 || b == 33 || b == 126 || b == 42 ||
  b == 39 || b == 40 || b == 41

/-- ECMA-262 `encodeURIComponent`, as called on identifiers in
`HyperstreamClient.getToken` (`src/client.ts` line 68): each UTF-8 byte
(`s.data.flatMap String.utf8EncodeChar` is `String.toUTF8` unfolded) is
either kept (unreserved) or percent-escaped with uppercase hex. -/
def encodeURIComponent (s : String) : String :=
  ⟨((s.data.flatMap String.utf8EncodeChar).map (fun b =>
      if isUriUnreservedByte b.toNat then [Char.ofNat b.toNat]
      else percentEncodeByte b.toNat)).flatten⟩

/-- The request path chosen by `HyperstreamClient.getToken` (`src/client.ts`
lines 67-71): the lookup-by-address path when the identifier is hex-like,
otherwise the lookup-by-symbol path. -/
def getTokenPath (chainId : Int) (identifier : String) : String :=
  if isHexLike identifier then
    "/v1/tokens/" ++ toString chainId ++ "/" ++ encodeURIComponent identifier
  else
    "/v1/tokens/" ++ toString chainId ++ "/symbol/" ++
      encodeURIComponent identifier

/-- `isHexLike` accepts exactly the strings of the form `0x` followed by one
or more hexadecimal digits. -/
lemma isHexLike_iff (s : String) :
    isHexLike s = true ↔
      ∃ rest, s.data = '0' :: 'x' :: rest ∧ rest ≠ [] ∧
        ∀ c ∈ rest, isAsciiHexDigit c = true := by
  obtain ⟨l⟩ := s
  rcases l with _ | ⟨a, _ | ⟨b, t⟩⟩
  · simp [isHexLike]
  · simp [isHexLike]
  · simp only [isHexLike, Bool.and_eq_true, beq_iff_eq, Bool.not_eq_true',
      List.isEmpty_eq_false, List.all_eq_true]
    constructor
    · rintro ⟨⟨⟨ha, hb⟩, ht⟩, hall⟩
      exact ⟨t, by rw [ha, hb], ht, hall⟩
    · rintro ⟨rest, heq, hne, hall⟩
      obtain ⟨ha, hb, ht⟩ : a = '0' ∧ b = 'x' ∧ t = rest := by
        simpa using heq
      subst ha; subst hb; subst ht
      exact ⟨⟨⟨rfl, rfl⟩, hne⟩, hall⟩

/-- C9: a `getToken` identifier matching the hex pattern (`0x` followed by
one or more hex digits) takes the lookup-by-address path; any other
identifier takes the lookup-by-symbol path. -/
theorem getToken_path_disambiguation (chainId : Int) (s : String) :
    ((∃ rest, s.data = '0' :: 'x' :: rest ∧ rest ≠ [] ∧
        ∀ c ∈ rest, isAsciiHexDigit c = true) →
      getTokenPath chainId s =
        "/v1/tokens/" ++ toString chainId ++ "/" ++ encodeURIComponent s) ∧
    ((¬∃ rest, s.data = '0' :: 'x' :: rest ∧ rest ≠ [] ∧
        ∀ c ∈ rest, isAsciiHexDigit c = true) →
      getTokenPath chainId s =
        "/v1/tokens/" ++ toString chainId ++ "/symbol/" ++
          encodeURIComponent s) := by
  constructor
  · intro h
    have hx : isHexLike s = true := (isHexLike_iff s).mpr h
    simp only [getTokenPath, if_pos hx]
  · intro h
    have hx : ¬ isHexLike s = true := fun hx => h ((isHexLike_iff s).mp hx)
    simp only [getTokenPath, if_neg hx]

/-- C9 witness: `"0xAb"` takes the address path and `"usdc"` the symbol
path, with concrete rendered paths. -/
theorem getToken_path_disambiguation_witness :
    getTokenPath 1 "0xAb" = "/v1/tokens/1/0xAb" ∧
    getTokenPath 8453 "usdc" = "/v1/tokens/8453/symbol/usdc" := by
  constructor
  · have h := (getToken_path_disambiguation 1 "0xAb").1
      ⟨['A', 'b'], rfl, by decide, by decide⟩
    rw [h]
    decide
  · have h := (getToken_path_disambiguation 8453 "usdc").2 (by
      rintro ⟨rest, heq, -, -⟩
      simp at heq)
    rw [h]
    decide

/-- The effect of `config.baseUrl.replace(/\/+$/, "")` (`src/client.ts`
line 46): remove every trailing slash. -/
def stripTrailingSlashes (s : String) : String :=
  ⟨(s.data.reverse.dropWhile (fun c => c == '/')).reverse⟩

/-- The base-address normalization of the `HyperstreamClient` constructor
(`src/client.ts` line 46): `config.baseUrl.replace(/\/+$/, "") ||
config.baseUrl` — the stripped address, unless stripping produced the empty
(falsy) string, in which case the original address is kept. -/
def hsNormalizeBase (baseUrl : String) : String :=
  let stripped := stripTrailingSlashes baseUrl
  if stripped == "" then baseUrl else stripped

/-- `Fetch.request` URL assembly (`src/fetch.ts` line 102):
`this.baseURL ? this.baseURL + url : url`. -/
def fetchFullUrl (baseURL : Option String) (url : String) : String :=
  if jsTruthyStr baseURL then baseURL.getD "" ++ url else url

/-- C7 counterexample: the non-empty base address `"/"` is not used with its
trailing slashes stripped — stripping yields `""`, and the constructor keeps
`"/"` instead. -/
theorem baseUrl_strip_counterexample :
    hsNormalizeBase "/" = "/" ∧ stripTrailingSlashes "/" = "" ∧
      hsNormalizeBase "/" ≠ stripTrailingSlashes "/" := by
  refine ⟨rfl, rfl, ?_⟩
  decide

/-- C7 (amended): for every non-empty base address, the base used by all
subsequent requests is the configured address with all trailing slashes
stripped — except when stripping yields the empty string (an all-slash
address), in which case the address is used unchanged — and every request
URL is that same immutable base followed by the request path. -/
theorem baseUrl_normalization (baseUrl : String) (h : baseUrl ≠ "") :
    (stripTrailingSlashes baseUrl ≠ "" →
      hsNormalizeBase baseUrl = stripTrailingSlashes baseUrl) ∧
    (stripTrailingSlashes baseUrl = "" → hsNormalizeBase baseUrl = baseUrl) ∧
    (∀ path, fetchFullUrl (some (hsNormalizeBase baseUrl)) path =
      hsNormalizeBase baseUrl ++ path) := by
  refine ⟨fun hs => ?_, fun hs => ?_, fun path => ?_⟩
  · simp [hsNormalizeBase, hs]
  · simp [hsNormalizeBase, hs]
  · have hne : hsNormalizeBase baseUrl ≠ "" := by
      by_cases hs : stripTrailingSlashes baseUrl = ""
      · simpa [hsNormalizeBase, hs] using h
      · simp [hsNormalizeBase, hs]
    simp [fetchFullUrl, jsTruthyStr, hne]

/-- C7 witness: `"https://api.example.com/"` is stripped to
`"https://api.example.com"`, and a request to `"/v1/chains"` hits
`"https://api.example.com/v1/chains"`. -/
theorem baseUrl_normalization_witness :
    hsNormalizeBase "https://api.example.com/" = "https://api.example.com" ∧
    fetchFullUrl (some (hsNormalizeBase "https://api.example.com/"))
      "/v1/chains" = "https://api.example.com/v1/chains" := by
  have h := baseUrl_normalization "https://api.example.com/" (by decide)
  constructor
  · rw [h.1 (by decide)]
    decide
  · rw [h.2.2 "/v1/chains"]
    decide

/-- A query-mapping value: `string | number | undefined` per the
`ClientRequestConfig` type, plus `null`, which the loop also checks
(`src/client.ts` line 200). -/
inductive QueryValue where
  | undef
  | null
  | str (s : String)
  | num (n : Int)
deriving DecidableEq, Repr

/-- JavaScript `String(value)` on a query value (`src/client.ts` line 201). -/
def jsStringOfQuery : QueryValue → String
  | .undef => "undefined"
  | .null => "null"
  | .str s => s
  | .num n => toString n

/-- `URLSearchParams.set` (WHATWG URL standard): overwrite the first pair
with the given name and drop later ones, else append. -/
def paramsSet : List (String × String) → String → String → List (String × String)
  | [], k, v => [(k, v)]
  | p :: rest, k, v =>
    if p.1 == k then (k, v) :: rest.filter (fun q => !(q.1 == k))
    else p :: paramsSet rest k v

/-- The query-building loop of `buildPathWithQuery` (`src/client.ts` lines
198-202): iterate `Object.entries(query)`, skip `undefined`/`null` values,
`params.set(key, String(value))` for the rest. -/
def buildParams (query : List (String × QueryValue)) : List (String × String) :=
  query.foldl (fun params kv =>
    if kv.2 == QueryValue.undef || kv.2 == QueryValue.null then params
    else paramsSet params kv.1 (jsStringOfQuery kv.2)) []

/-- The bytes `application/x-www-form-urlencoded` serialization leaves
unescaped: ASCII alphanumerics and `* - . _` (WHATWG URL standard, used by
`URLSearchParams.toString`). -/
def isFormUnreservedByte (b : Nat) : Bool :=
  (48 ≤ b && b ≤ 57) || (65 ≤ b && b ≤ 90) || (97 ≤ b && b ≤ 122) ||
  b == 42 || b == 45 || b == 46 || b == 95

/-- One byte of `application/x-www-form-urlencoded` output: space becomes
`+`, unreserved bytes stay, the rest are percent-escaped. -/
def formEncodeByte (b : Nat) : List Char :=
  if b == 32 then ['+']
  else if isFormUnreservedByte b then [Char.ofNat b]
  else percentEncodeByte b

/-- `application/x-www-form-urlencoded` serialization of one name or value,
over its UTF-8 bytes. -/
def formEncode (s : String) : String :=
  ⟨((s.data.flatMap String.utf8EncodeChar).map
      (fun b => formEncodeByte b.toNat)).flatten⟩

/-- `&`-joining of serialized pairs, as in `URLSearchParams.toString`. -/
def joinAmp : List String → String
  | [] => ""
  | [x] => x
  | x :: y :: rest => x ++ "&" ++ joinAmp (y :: rest)

/-- `URLSearchParams.toString` (`src/client.ts` line 204): each pair is
`encodedName=encodedValue`, pairs joined by `&`. -/
def paramsToString (params : List (String × String)) : String :=
  joinAmp (params.map (fun p => formEncode p.1 ++ "=" ++ formEncode p.2))

/-- `path.startsWith("/")` (`src/client.ts` line 193). -/
def startsWithSlash (s : String) : Bool :=
  match s.data with
  | c :: _ => c == '/'
  | [] => false

/-- The path normalization of `buildPathWithQuery` (`src/client.ts` line
193): prepend `/` exactly when the path does not already start with one. -/
def normalizePath (path : String) : String :=
  if startsWithSlash path then path else "/" ++ path

/-- `HyperstreamClient.buildPathWithQuery` (`src/client.ts` lines 189-206):
normalize the path; without a query mapping return it; otherwise build the
search params and append `?` plus the serialized query exactly when it is
non-empty (truthy). -/
def buildPathWithQuery (path : String)
    (query : Option (List (String × QueryValue))) : String :=
  let normalizedPath := normalizePath path
  match query with
  | none => normalizedPath
  | some q =>
    let queryString := paramsToString (buildParams q)
    if queryString ≠ "" then normalizedPath ++ "?" ++ queryString
    else normalizedPath

/-- Modelled from the spec's words "exactly one leading slash": the claim's
property that the sent path starts with one slash and not two. -/
def specExactlyOneLeadingSlash (s : String) : Bool :=
  match s.data with
  | c :: d :: _ => c == '/' && d != '/'
  | [c] => c == '/'
  | [] => false

/-- A nullish query value (`undefined` or `null`). -/
def isNullish : QueryValue → Bool
  | .undef => true
  | .null => true
  | .str _ => false
  | .num _ => false

/-- `isNullish` agrees with the loop's `value === undefined || value ===
null` check. -/
lemma isNullish_eq (v : QueryValue) :
    isNullish v = (v == QueryValue.undef || v == QueryValue.null) := by
  cases v <;> rfl

/-- Modelled from the spec's words for the query mapping: keys with
`undefined` or `null` values omitted, remaining values stringified. -/
def specKeptParams (query : List (String × QueryValue)) :
    List (String × String) :=
  (query.filter (fun kv => !isNullish kv.2)).map
    (fun kv => (kv.1, jsStringOfQuery kv.2))

/-- A three-part string concatenation with a non-empty middle is non-empty. -/
lemma append3_ne_empty (a b c : String) (hb : b ≠ "") : a ++ b ++ c ≠ "" := by
  intro h
  have hd := congrArg String.data h
  simp only [String.data_append] at hd
  have hb' : a.data = [] ∧ b.data = [] ∧ c.data = [] := by simpa using hd
  exact hb (String.ext hb'.2.1)

/-- A serialized query with at least one pair is non-empty: every pair
renders with a `=` inside. -/
lemma paramsToString_ne_empty (p : String × String)
    (rest : List (String × String)) : paramsToString (p :: rest) ≠ "" := by
  cases rest with
  | nil =>
    simpa [paramsToString, joinAmp] using
      append3_ne_empty (formEncode p.1) "=" (formEncode p.2) (by decide)
  | cons q r =>
    simp only [paramsToString, List.map_cons, joinAmp]
    exact append3_ne_empty _ "&" _ (by decide)

/-- `URLSearchParams.set` with a fresh name appends the pair. -/
lemma paramsSet_append (k v : String) (l : List (String × String))
    (h : k ∉ l.map Prod.fst) : paramsSet l k v = l ++ [(k, v)] := by
  induction l with
  | nil => rfl
  | cons p rest ih =>
    simp only [List.map_cons, List.mem_cons, not_or] at h
    have hne : ¬(p.1 == k) = true := by
      simp only [beq_iff_eq]
      exact fun he => h.1 he.symm
    simp only [paramsSet, if_neg hne, List.cons_append]
    rw [ih h.2]

/-- The query loop invariant: with pairwise-distinct keys (as `Object.entries`
of a record guarantees) and an accumulator disjoint from them, the loop
appends exactly the kept, stringified entries in order. -/
lemma buildParams_go (query : List (String × QueryValue)) :
    ∀ acc : List (String × String),
      (query.map Prod.fst).Nodup →
      (∀ k ∈ acc.map Prod.fst, k ∉ query.map Prod.fst) →
      query.foldl (fun params kv =>
        if kv.2 == QueryValue.undef || kv.2 == QueryValue.null then params
        else paramsSet params kv.1 (jsStringOfQuery kv.2)) acc =
        acc ++ specKeptParams query := by
  induction query with
  | nil =>
    intro acc _ _
    simp [specKeptParams]
  | cons kv rest ih =>
    intro acc hnd hdis
    simp only [List.map_cons, List.nodup_cons] at hnd
    have hdis' : ∀ k ∈ acc.map Prod.fst, k ∉ rest.map Prod.fst := by
      intro k hk hmem
      exact hdis k hk (by simp only [List.map_cons, List.mem_cons]; exact Or.inr hmem)
    by_cases hskip : (kv.2 == QueryValue.undef || kv.2 == QueryValue.null) = true
    · have hcond : isNullish kv.2 = true := by rw [isNullish_eq, hskip]
      rw [List.foldl_cons, if_pos hskip, ih acc hnd.2 hdis']
      simp only [specKeptParams, List.filter_cons, hcond, Bool.not_true,
        Bool.false_eq_true, if_false]
    · have hcond : isNullish kv.2 = false := by
        rw [isNullish_eq, Bool.eq_false_iff.mpr hskip]
      have hk1 : kv.1 ∉ acc.map Prod.fst := fun hmem =>
        hdis kv.1 hmem (by simp)
      have hdis2 : ∀ k ∈ (acc ++ [(kv.1, jsStringOfQuery kv.2)]).map Prod.fst,
          k ∉ rest.map Prod.fst := by
        intro k hk
        simp only [List.map_append, List.map_cons, List.map_nil,
          List.mem_append, List.mem_cons, List.not_mem_nil, or_false] at hk
        rcases hk with hk | hk
        · exact hdis' k hk
        · subst hk
          exact hnd.1
      rw [List.foldl_cons, if_neg hskip, paramsSet_append kv.1 _ acc hk1,
        ih (acc ++ [(kv.1, jsStringOfQuery kv.2)]) hnd.2 hdis2]
      simp only [specKeptParams, List.filter_cons, hcond, Bool.not_false,
        if_true, List.map_cons, List.append_assoc, List.cons_append,
        List.nil_append]

/-- With pairwise-distinct keys, the built search params are exactly the
kept, stringified entries. -/
lemma buildParams_eq (q : List (String × QueryValue))
    (h : (q.map Prod.fst).Nodup) : buildParams q = specKeptParams q := by
  simpa [buildParams] using buildParams_go q [] h (by simp)

/-- The normalized path always starts with a slash. -/
lemma startsWithSlash_normalizePath (path : String) :
    startsWithSlash (normalizePath path) = true := by
  unfold normalizePath
  by_cases h : startsWithSlash path = true
  · rw [if_pos h]
    exact h
  · rw [if_neg h]
    have hd : ("/" ++ path).data = '/' :: path.data := by
      rw [String.data_append]
      rfl
    simp [startsWithSlash, hd]

/-- C8 counterexample: the path `"//x"` is sent unchanged, and it does not
have exactly one leading slash — the dispatcher only guarantees at least
one. -/
theorem buildPath_exactly_one_slash_counterexample :
    buildPathWithQuery "//x" none = "//x" ∧
    specExactlyOneLeadingSlash "//x" = false := by
  exact ⟨rfl, rfl⟩

/-- C8 (amended): the path sent to the transport has at least one leading
slash — a missing leading slash is added and nothing else is rewritten — and
when a query mapping (with pairwise-distinct keys, as `Object.entries` of a
record yields) is supplied, keys with `undefined` or `null` values are
omitted, remaining values are stringified, and the encoded query string is
appended after `?` exactly when it is non-empty. -/
theorem buildPathWithQuery_rules (path : String) :
    startsWithSlash (normalizePath path) = true ∧
    (startsWithSlash path = true → normalizePath path = path) ∧
    (startsWithSlash path = false → normalizePath path = "/" ++ path) ∧
    buildPathWithQuery path none = normalizePath path ∧
    (∀ q, (q.map Prod.fst).Nodup →
      buildPathWithQuery path (some q) =
        if specKeptParams q = [] then normalizePath path
        else normalizePath path ++ "?" ++ paramsToString (specKeptParams q)) := by
  refine ⟨startsWithSlash_normalizePath path, fun h => ?_, fun h => ?_, rfl,
    fun q hnd => ?_⟩
  · rw [normalizePath, if_pos h]
  · rw [normalizePath, if_neg (by simp [h])]
  · simp only [buildPathWithQuery]
    rw [buildParams_eq q hnd]
    cases hk : specKeptParams q with
    | nil => simp [paramsToString, joinAmp]
    | cons p rest =>
      rw [if_pos (paramsToString_ne_empty p rest), if_neg (by simp)]

/-- C8 witness: a slash-less path gains one; nullish query entries are
dropped, numbers are stringified, a space encodes as `+`; an all-nullish
query appends nothing. -/
theorem buildPathWithQuery_rules_witness :
    buildPathWithQuery "v1/tokens" none = "/v1/tokens" ∧
    buildPathWithQuery "/v1/search"
      (some [("q", QueryValue.str "usd c"), ("limit", QueryValue.num 10),
             ("cursor", QueryValue.undef), ("flag", QueryValue.null)]) =
      "/v1/search?q=usd+c&limit=10" ∧
    buildPathWithQuery "/v1/search" (some [("cursor", QueryValue.undef)]) =
      "/v1/search" := by
  refine ⟨?_, ?_, ?_⟩
  · have h := (buildPathWithQuery_rules "v1/tokens").2.2.2.1
    rw [h]
    decide
  · have h := (buildPathWithQuery_rules "/v1/search").2.2.2.2
      [("q", QueryValue.str "usd c"), ("limit", QueryValue.num 10),
       ("cursor", QueryValue.undef), ("flag", QueryValue.null)] (by decide)
    rw [h]
    decide
  · have h := (buildPathWithQuery_rules "/v1/search").2.2.2.2
      [("cursor", QueryValue.undef)] (by decide)
    rw [h]
    decide

end Hyperstream
